import Mathlib

/-! Verification of the restaurant-recommendation serving pipeline:
the request handler in server/app/main.py, the table schema in
server/app/database.py, and the cache pre-warmer in
server/gunicorn_conf.py.

Modelling conventions: floating-point values are modelled as rationals;
the great-circle displacement (haversine followed by Python round, in
meters) is modelled as an abstract integer-valued function `disp`
passed as a parameter, since none of the verified properties depend on
its definition; Python exceptions are modelled with `Except` (an
uncaught exception propagates as `Except.error`); the pickle
serialization of the feature array is modelled by the `CacheVal`
inductive, where `corrupt` stands for any byte string that
`pickle.loads` fails to decode. -/

namespace RestaurantRec

/-- A row of the restaurants table, per database.py: columns
restaurant_id, index, latitude, longitude, h3_index. Coordinates are
`Option` because the ranking loop in main.py converts them with
float(..) inside a try/except and skips rows whose coordinates fail to
convert (a NULL column arrives as Python None). -/
structure RestaurantRecord where
  restaurant_id : String
  index : Int
  latitude : Option ℚ
  longitude : Option ℚ
  h3_index : String
  deriving DecidableEq

/-- One element of the response list built in main.py lines 157-161:
keys id, difference (the model similarity distance) and displacement
(rounded meters). -/
structure CandidateResult where
  id : String
  difference : ℚ
  displacement : Int
  deriving DecidableEq

/-- A row of the users table, per database.py: column user_id followed
by columns feature_0 .. feature_999 in declaration order. `feat i`
is the value of column feature_i. -/
structure UserRow where
  user_id : String
  feat : Nat → ℚ

/-- A value stored in the cache backend: either the pickle encoding of
a 1 by 1000 feature array (kept as its row, a list of rationals), or a
byte string that pickle.loads cannot decode. -/
inductive CacheVal where
  | enc (features : List ℚ)
  | corrupt
  deriving DecidableEq

/-- Model of pickle.loads on a cache value: decodes an encoded feature
array, fails on a corrupt value. -/
def pickleLoads : CacheVal → Option (List ℚ)
  | .enc f => some f
  | .corrupt => none

/-- The row tuple returned for one user by the pre-warmer query
select(users_table): the user_id column first, then the 1000 feature
columns in order; cells are tagged strings or numbers. -/
inductive Cell where
  | str (s : String)
  | num (q : ℚ)
  deriving DecidableEq

/-- Full users-table row as the SQL tuple the pre-warmer iterates
over: user_id, feature_0, .., feature_999 (column order of
database.py). -/
def usersFullRow (r : UserRow) : List Cell :=
  .str r.user_id :: (List.range 1000).map (fun i => .num (r.feat i))

/-- The slice user[1:] taken by gunicorn_conf.py line 42: everything
after the user_id cell. -/
def prewarmSlice (r : UserRow) : List Cell :=
  (usersFullRow r).drop 1

/-- Model of np.array(..) over a tuple slice coerced to a float
vector: succeeds exactly when every cell is numeric. -/
def cellsToVec : List Cell → Option (List ℚ)
  | [] => some []
  | .num q :: rest => (cellsToVec rest).map (fun v => q :: v)
  | .str _ :: _ => none

/-- The cache value the pre-warmer writes for one user row:
pickle.dumps of np.array(user[1:]).reshape(1, -1)
(gunicorn_conf.py lines 42-43). -/
def prewarmCacheValue (r : UserRow) : Option CacheVal :=
  (cellsToVec (prewarmSlice r)).map .enc

/-- Total form of `prewarmCacheValue` used by the pre-warm loop; the
corrupt default is proved unreachable in the claim C8 theorem. -/
def prewarmValue (r : UserRow) : CacheVal :=
  (prewarmCacheValue r).getD .corrupt

/-- The tuple selected by the serving-path miss query in main.py line
103: columns feature_0, then feature_1 .. feature_999, in that order
(the Python list comprehension ranges over 1..999). -/
def servingSelectedRow (r : UserRow) : List ℚ :=
  r.feat 0 :: (List.range' 1 999).map r.feat

/-- Python dict insert m[r.index] = r, as a function update. -/
def dictInsert (m : Int → Option RestaurantRecord) (r : RestaurantRecord) :
    Int → Option RestaurantRecord :=
  fun j => if j = r.index then some r else m j

/-- The dict comprehension of main.py line 138 building
restaurant_map_by_index: inserts every record in sequence order, so a
later duplicate ordinal index overwrites an earlier one. -/
def buildMapByIndex (rs : List RestaurantRecord) : Int → Option RestaurantRecord :=
  rs.foldl dictInsert (fun _ => none)

/-- Body of the per-candidate loop of main.py lines 142-161 for one
(model_index, model_distance) pair: look the record up in the map,
skip if absent, skip if either coordinate fails float conversion, else
build the response entry with the rounded haversine displacement
(abstracted as `disp`). -/
def resultOf (disp : ℚ × ℚ → ℚ × ℚ → Int) (origin : ℚ × ℚ)
    (records : List RestaurantRecord) (c : Int × ℚ) : Option CandidateResult :=
  match buildMapByIndex records c.1 with
  | none => none
  | some r =>
    match r.latitude, r.longitude with
    | some lat, some lon => some ⟨r.restaurant_id, c.2, disp origin (lat, lon)⟩
    | _, _ => none

/-- The full candidate loop (main.py lines 140-161): candidates carry
(ordinal index, similarity distance) in similarity order. -/
def computeResults (disp : ℚ × ℚ → ℚ × ℚ → Int) (origin : ℚ × ℚ)
    (candidates : List (Int × ℚ)) (records : List RestaurantRecord) :
    List CandidateResult :=
  candidates.filterMap (resultOf disp origin records)

/-- The displacement filter of main.py line 164. -/
def rankFilter (max_dis : Int) (l : List CandidateResult) : List CandidateResult :=
  l.filter (fun r => r.displacement ≤ max_dis)

/-- The sort of main.py lines 165-168: Python sorted with a key is a
stable sort, modelled by mergeSort on the corresponding
less-or-equal-by-key relation. -/
def rankSort (sort_dis : Int) (l : List CandidateResult) : List CandidateResult :=
  if sort_dis = 1 then l.mergeSort (fun a b => a.displacement ≤ b.displacement)
  else l.mergeSort (fun a b => a.difference ≤ b.difference)

/-- The whole filter-sort-truncate ranking stage of main.py lines
138-169. `size` is validated positive by the endpoint, so the Python
slice up to size agrees with take. -/
def rank (disp : ℚ × ℚ → ℚ × ℚ → Int) (origin : ℚ × ℚ)
    (candidates : List (Int × ℚ)) (records : List RestaurantRecord)
    (max_dis sort_dis size : Int) : List CandidateResult :=
  ((rankSort sort_dis (rankFilter max_dis
      (computeResults disp origin candidates records))).take size.toNat)

/-- The candidate-store query of main.py lines 129-133: rows of the
restaurants table whose ordinal index is in the model result list and
whose h3 cell is in the search ring. -/
def fetchRestaurants (db : List RestaurantRecord) (indices : List Int)
    (cells : List String) : List RestaurantRecord :=
  db.filter (fun r => indices.contains r.index && cells.contains r.h3_index)

/-- Per-request environment of main.py: model-loaded flag (app.state),
availability of the module-level redis client (None when the startup
connect failed), whether a redis set call succeeds during this
request, the kneighbors query of the loaded model (returning pairs of
ordinal index and distance, already zipped as the handler does by
enumerate), the two h3 helpers, and the abstract rounded haversine. -/
structure Env where
  modelLoaded : Bool
  redisAvailable : Bool
  cacheSetOk : Bool
  knn : List ℚ → List (Int × ℚ)
  latlngToCell : ℚ → ℚ → String
  gridDisk : String → List String
  disp : ℚ × ℚ → ℚ × ℚ → Int

/-- Mutable stores a request touches: the cache backend contents, the
users table and the restaurants table. -/
structure St where
  cache : String → Option CacheVal
  users : List UserRow
  restaurants : List RestaurantRecord

/-- Request parameters of the endpoint after type parsing. -/
structure Params where
  user_id : String
  latitude : ℚ
  longitude : ℚ
  size : Int
  max_dis : Int
  sort_dis : Int

/-- Request failure modes; an uncaught Python exception inside the
handler is an `Except.error` too. -/
inductive Err where
  | validationError
  | modelNotLoaded
  | deserializationError
  | userNotFound
  | cacheWriteError
  deriving DecidableEq

/-- The FastAPI Query constraints declared on the endpoint signature,
main.py lines 77-83: size gt 0, max_dis gt 0, sort_dis ge 0 le 1.
latitude and longitude are declared as plain floats and carry no range
constraint. -/
def paramsValid (p : Params) : Bool :=
  0 < p.size && 0 < p.max_dis && 0 ≤ p.sort_dis && p.sort_dis ≤ 1

/-- The users-table lookup of main.py lines 102-104: select the 1000
feature columns where user_id matches and take the first row. -/
def userSelect (users : List UserRow) (uid : String) : Option UserRow :=
  users.find? (fun u => u.user_id == uid)

/-- The feature-fetch block of main.py lines 88-113: consult the cache
when the client exists, decode a hit with pickle.loads (an undecodable
value raises, which propagates), on a miss read the users table, 404
when absent, else build the 1 by 1000 array and write it back with
redis set when the client exists (a set failure raises and
propagates). Returns the served features and the cache state after the
block. -/
def getFeatures (env : Env) (s : St) (uid : String) : Except Err (List ℚ × St) :=
  match (if env.redisAvailable then s.cache uid else none) with
  | some v =>
    match pickleLoads v with
    | some f => .ok (f, s)
    | none => .error .deserializationError
  | none =>
    match userSelect s.users uid with
    | none => .error .userNotFound
    | some row =>
      if env.redisAvailable then
        if env.cacheSetOk then
          .ok (servingSelectedRow row,
            { s with cache := fun k =>
                if k = uid then some (.enc (servingSelectedRow row)) else s.cache k })
        else .error .cacheWriteError
      else .ok (servingSelectedRow row, s)

/-- The whole handler get_recommendations of main.py lines 77-171:
parameter validation (done by FastAPI before the body runs), the
model-loaded guard, the feature fetch, the kneighbors query, the h3
cell and ring, the candidate-store query, and the
filter-sort-truncate ranking stage. -/
def handleRecommend (env : Env) (p : Params) (s : St) :
    Except Err (List CandidateResult × St) :=
  if ¬ paramsValid p then .error .validationError
  else if ¬ env.modelLoaded then .error .modelNotLoaded
  else
    match getFeatures env s p.user_id with
    | .error e => .error e
    | .ok (features, s1) =>
      if (env.knn features).isEmpty then .ok ([], s1)
      else if (env.gridDisk (env.latlngToCell p.latitude p.longitude)).isEmpty then
        .ok ([], s1)
      else if (fetchRestaurants s1.restaurants ((env.knn features).map Prod.fst)
          (env.gridDisk (env.latlngToCell p.latitude p.longitude))).isEmpty then
        .ok ([], s1)
      else
        .ok (rank env.disp (p.latitude, p.longitude) (env.knn features)
          (fetchRestaurants s1.restaurants ((env.knn features).map Prod.fst)
            (env.gridDisk (env.latlngToCell p.latitude p.longitude)))
          p.max_dis p.sort_dis p.size, s1)

/-- Outcome of the redis connect-and-ping attempt at the top of
on_starting (gunicorn_conf.py lines 17-24): success, a
redis ConnectionError (the only exception class the hook catches
there), or any other exception class. -/
inductive ConnectOutcome where
  | ok
  | connectionError
  | otherError
  deriving DecidableEq

/-- Environment of one run of the pre-warm hook: the connect outcome,
the users table, and fault switches saying whether the fetchmany read
and the pipelined write of batch number i succeed. -/
structure PrewarmEnv where
  connect : ConnectOutcome
  users : List UserRow
  fetchOk : Nat → Bool
  writeOk : Nat → Bool

/-- What the hook did: skipped (no redis), degraded after a caught
loop failure (workers lazy-load), or loaded n users. -/
inductive PrewarmOutcome where
  | skipped
  | degraded
  | loaded (n : Nat)
  deriving DecidableEq

/-- Batches of 5000 rows as produced by fetchmany(5000) in
gunicorn_conf.py line 35. -/
def chunks5000 (l : List UserRow) : List (List UserRow) :=
  match l with
  | [] => []
  | x :: rest => (x :: rest.take 4999) :: chunks5000 (rest.drop 4999)
termination_by l.length
decreasing_by simp only [List.length_drop, List.length_cons]; omega

/-- The pre-warm read-write loop of gunicorn_conf.py lines 29-47:
process the batches in order, failing (raising) at the first batch
whose read or whose pipelined write fails, else accumulate the user
count and the written cache entries. -/
def prewarmGo (env : PrewarmEnv) :
    List (List UserRow) → Nat → Nat → List (String × CacheVal) →
    Except String (Nat × List (String × CacheVal))
  | [], _, total, writes => .ok (total, writes)
  | batch :: rest, i, total, writes =>
    if env.fetchOk i then
      if env.writeOk i then
        prewarmGo env rest (i + 1) (total + batch.length)
          (writes ++ batch.map (fun u => (u.user_id, prewarmValue u)))
      else .error "pipeline execute raised"
    else .error "fetchmany raised"

/-- The body of the second try block of on_starting. -/
def prewarmLoop (env : PrewarmEnv) : Except String (Nat × List (String × CacheVal)) :=
  prewarmGo env (chunks5000 env.users) 0 0 []

/-- The gunicorn master hook on_starting (gunicorn_conf.py lines
11-51): a connect failure of class ConnectionError is caught and the
hook returns (skipped); any other exception at connect time is not
caught and propagates; the whole read-write loop is wrapped in a try
block catching every exception, after which the hook returns
(degraded). -/
def on_starting (env : PrewarmEnv) : Except String PrewarmOutcome :=
  match env.connect with
  | .connectionError => .ok .skipped
  | .otherError => .error "unhandled exception during connect"
  | .ok =>
    match prewarmLoop env with
    | .error _ => .ok .degraded
    | .ok (n, _) => .ok (.loaded n)

/-- Concrete user row used by the concrete scenarios below. -/
def rowU1 : UserRow := ⟨"u1", fun _ => 0⟩

/-- Concrete restaurant row with ordinal index 5 and cell c. -/
def recA : RestaurantRecord := ⟨"A", 5, some 0, some 0, "c"⟩

/-- Second concrete restaurant row with the same ordinal index 5. -/
def recB : RestaurantRecord := ⟨"B", 5, some 1, some 1, "c"⟩

/-- Concrete rounded-haversine stand-in returning 100 meters. -/
def dispC : ℚ × ℚ → ℚ × ℚ → Int := fun _ _ => 100

/-- Concrete environment: model loaded, redis reachable, writes
succeed, the model returns neighbor 5 at distance 1, the ring is the
single cell c. -/
def envHit : Env := ⟨true, true, true, fun _ => [(5, 1)], fun _ _ => "c", fun _ => ["c"], dispC⟩

/-- Environment in which a redis set call raises. -/
def envSetFail : Env := { envHit with cacheSetOk := false }

/-- Concrete request with latitude 100, outside the legal range. -/
def pReq : Params := ⟨"u1", 100, 0, 20, 5000, 0⟩

/-- State with a decodable cached vector for u1. -/
def stHit : St := ⟨fun k => if k = "u1" then some (.enc [1]) else none, [rowU1], [recA]⟩

/-- State whose cached value for u1 is undecodable. -/
def stCorrupt : St := ⟨fun k => if k = "u1" then some .corrupt else none, [rowU1], [recA]⟩

/-- State with an empty cache but a users row for u1. -/
def stMiss : St := ⟨fun _ => none, [rowU1], [recA]⟩

/-- State with an empty cache and no users row at all. -/
def stEmpty : St := ⟨fun _ => none, [], []⟩

/-- Pre-warm environment whose first pipelined write raises. -/
def envPre : PrewarmEnv := ⟨.ok, [rowU1], fun _ => true, fun _ => false⟩

theorem getLast?_cons_or {α : Type _} (l : List α) (a : α) :
    (a :: l).getLast? = (l.getLast?).or (some a) := by
  induction l generalizing a with
  | nil => simp
  | cons b t ih =>
    rw [List.getLast?_cons_cons, ih b, Option.or_assoc, Option.or_some]

theorem foldl_dictInsert_apply (rs : List RestaurantRecord)
    (m : Int → Option RestaurantRecord) (i : Int) :
    rs.foldl dictInsert m i = ((rs.filter (fun r => r.index = i)).getLast?).or (m i) := by
  induction rs generalizing m with
  | nil => simp
  | cons r rest ih =>
    rw [List.foldl_cons, ih]
    by_cases h : r.index = i
    · rw [List.filter_cons_of_pos (by simpa using h), getLast?_cons_or,
        Option.or_assoc, Option.or_some]
      congr 1
      simp only [dictInsert]
      rw [if_pos h.symm]
    · rw [List.filter_cons_of_neg (by simpa using h)]
      congr 1
      simp only [dictInsert]
      rw [if_neg (fun hh : i = r.index => h hh.symm)]

theorem buildMap_mem (rs : List RestaurantRecord) (i : Int) (r : RestaurantRecord)
    (h : buildMapByIndex rs i = some r) : r ∈ rs ∧ r.index = i := by
  unfold buildMapByIndex at h
  rw [foldl_dictInsert_apply, Option.or_none] at h
  have hm := List.mem_of_getLast?_eq_some h
  have := List.mem_filter.mp hm
  exact ⟨this.1, by simpa using this.2⟩

theorem mergeSort_key_sorted {α β : Type _} [LinearOrder β] (key : α → β) (l : List α) :
    (l.mergeSort (fun a b => key a ≤ key b)).Pairwise (fun a b => key a ≤ key b) := by
  refine List.Pairwise.imp ?_ (List.sorted_mergeSort ?_ ?_ l)
  · intro a b hab
    simpa using hab
  · intro a b c hab hbc
    simp only [decide_eq_true_eq] at hab hbc ⊢
    exact le_trans hab hbc
  · intro a b
    simpa using le_total (key a) (key b)

theorem mergeSort_key_filter {α β : Type _} [LinearOrder β] (key : α → β) (l : List α) (k : β) :
    (l.mergeSort (fun a b => key a ≤ key b)).filter (fun a => key a = k)
      = l.filter (fun a => key a = k) := by
  have hsub : List.Sublist (l.filter (fun a => key a = k))
      (l.mergeSort (fun a b => key a ≤ key b)) := by
    refine List.sublist_mergeSort ?_ ?_ ?_ (List.filter_sublist l)
    · intro a b c hab hbc
      simp only [decide_eq_true_eq] at hab hbc ⊢
      exact le_trans hab hbc
    · intro a b
      simpa using le_total (key a) (key b)
    · refine List.pairwise_of_forall_mem_list ?_
      intro a ha b hb
      have ha2 := (List.mem_filter.mp ha).2
      have hb2 := (List.mem_filter.mp hb).2
      simp only [decide_eq_true_eq] at ha2 hb2 ⊢
      rw [ha2, hb2]
  have hlen :=
    ((List.mergeSort_perm l (fun a b => key a ≤ key b)).filter
      (fun a => key a = k)).length_eq
  have h2 := hsub.filter (fun a => key a = k)
  rw [List.filter_filter] at h2
  simp only [Bool.and_self] at h2
  exact (h2.eq_of_length hlen.symm).symm

/-- C1: for every input to the rank stage with positive max_dis and
size and sort_dis in 0..1, every returned element has displacement at
most max_dis, the returned list has at most size elements, the list is
sorted non-decreasing by displacement when sort_dis is 1 and by
similarity distance otherwise, and the sort is stable: within each tie
class of the sort key the sorted list keeps exactly the order of the
filtered results, which are in the original similarity order. -/
theorem rank_bounded_paged_sorted_stable
    (disp : ℚ × ℚ → ℚ × ℚ → Int) (origin : ℚ × ℚ)
    (candidates : List (Int × ℚ)) (records : List RestaurantRecord)
    (max_dis sort_dis size : Int)
    (hsize : 0 < size) (hmax : 0 < max_dis) (hsd : sort_dis = 0 ∨ sort_dis = 1) :
    (∀ c ∈ rank disp origin candidates records max_dis sort_dis size,
        c.displacement ≤ max_dis)
    ∧ ((rank disp origin candidates records max_dis sort_dis size).length : Int) ≤ size
    ∧ (sort_dis = 1 →
        (rank disp origin candidates records max_dis sort_dis size).Pairwise
          (fun a b => a.displacement ≤ b.displacement)
        ∧ ∀ k : Int,
            (rankSort sort_dis (rankFilter max_dis
                (computeResults disp origin candidates records))).filter
                (fun c => c.displacement = k)
              = (rankFilter max_dis
                  (computeResults disp origin candidates records)).filter
                  (fun c => c.displacement = k))
    ∧ (sort_dis = 0 →
        (rank disp origin candidates records max_dis sort_dis size).Pairwise
          (fun a b => a.difference ≤ b.difference)
        ∧ ∀ k : ℚ,
            (rankSort sort_dis (rankFilter max_dis
                (computeResults disp origin candidates records))).filter
                (fun c => c.difference = k)
              = (rankFilter max_dis
                  (computeResults disp origin candidates records)).filter
                  (fun c => c.difference = k)) := by
  refine ⟨?_, ?_, ?_, ?_⟩
  · intro c hc
    have h1 : c ∈ rankSort sort_dis (rankFilter max_dis
        (computeResults disp origin candidates records)) :=
      List.take_subset _ _ hc
    have h2 : c ∈ rankFilter max_dis (computeResults disp origin candidates records) := by
      unfold rankSort at h1
      split at h1 <;> exact List.mem_mergeSort.mp h1
    unfold rankFilter at h2
    have := (List.mem_filter.mp h2).2
    simpa using this
  · have h1 := List.length_take_le size.toNat (rankSort sort_dis (rankFilter max_dis
        (computeResults disp origin candidates records)))
    unfold rank
    omega
  · intro h1
    subst h1
    constructor
    · unfold rank rankSort
      rw [if_pos rfl]
      exact List.Pairwise.sublist (List.take_sublist _ _)
        (mergeSort_key_sorted (fun c : CandidateResult => c.displacement) _)
    · intro k
      unfold rankSort
      rw [if_pos rfl]
      exact mergeSort_key_filter (fun c : CandidateResult => c.displacement) _ k
  · intro h0
    subst h0
    constructor
    · unfold rank rankSort
      rw [if_neg (by decide)]
      exact List.Pairwise.sublist (List.take_sublist _ _)
        (mergeSort_key_sorted (fun c : CandidateResult => c.difference) _)
    · intro k
      unfold rankSort
      rw [if_neg (by decide)]
      exact mergeSort_key_filter (fun c : CandidateResult => c.difference) _ k

/-- Witness for C1 at a concrete input: one candidate, one record,
max_dis 5000, sort_dis 1, size 20. -/
theorem rank_bounded_paged_sorted_stable_witness :
    (∀ c ∈ rank dispC (0, 0) [(5, 1)] [recA] 5000 1 20, c.displacement ≤ 5000)
    ∧ ((rank dispC (0, 0) [(5, 1)] [recA] 5000 1 20).length : Int) ≤ 20
    ∧ ((1 : Int) = 1 →
        (rank dispC (0, 0) [(5, 1)] [recA] 5000 1 20).Pairwise
          (fun a b => a.displacement ≤ b.displacement)
        ∧ ∀ k : Int,
            (rankSort 1 (rankFilter 5000
                (computeResults dispC (0, 0) [(5, 1)] [recA]))).filter
                (fun c => c.displacement = k)
              = (rankFilter 5000
                  (computeResults dispC (0, 0) [(5, 1)] [recA])).filter
                  (fun c => c.displacement = k))
    ∧ ((1 : Int) = 0 →
        (rank dispC (0, 0) [(5, 1)] [recA] 5000 1 20).Pairwise
          (fun a b => a.difference ≤ b.difference)
        ∧ ∀ k : ℚ,
            (rankSort 1 (rankFilter 5000
                (computeResults dispC (0, 0) [(5, 1)] [recA]))).filter
                (fun c => c.difference = k)
              = (rankFilter 5000
                  (computeResults dispC (0, 0) [(5, 1)] [recA])).filter
                  (fun c => c.difference = k)) :=
  rank_bounded_paged_sorted_stable dispC (0, 0) [(5, 1)] [recA] 5000 1 20
    (by decide) (by decide) (Or.inr rfl)

/-- Counterexample for C2: with two records sharing ordinal index 5,
record A first and record B second, the ranked output for index 5
carries the id of record B, the last one, not the first. -/
theorem duplicate_ordinal_uses_last_counterexample :
    recA.index = recB.index ∧ recA.restaurant_id = "A" ∧ recB.restaurant_id = "B" ∧
      (rank dispC (0, 0) [(5, 1)] [recA, recB] 5000 0 20).map CandidateResult.id = ["B"] ∧
      ("B" : String) ≠ "A" := by
  refine ⟨rfl, rfl, rfl, ?_, by decide⟩
  simp [rank, rankSort, rankFilter, computeResults, resultOf, buildMapByIndex,
    dictInsert, List.mergeSort, dispC, recA, recB]

/-- C2 amended: the mapping from ordinal index to record keeps the
LAST record encountered in the record sequence (a Python dict
comprehension lets later keys overwrite earlier ones), so the ranked
output for a duplicated ordinal index uses the last such record. -/
theorem buildMapByIndex_keeps_last (rs : List RestaurantRecord) (i : Int) :
    buildMapByIndex rs i = (rs.filter (fun r => r.index = i)).getLast? := by
  unfold buildMapByIndex
  rw [foldl_dictInsert_apply, Option.or_none]

theorem getFeatures_ok_frame (env : Env) (s : St) (uid : String)
    (f : List ℚ) (s1 : St) (h : getFeatures env s uid = .ok (f, s1)) :
    s1.users = s.users ∧ s1.restaurants = s.restaurants ∧
      ∀ k, k ≠ uid → s1.cache k = s.cache k := by
  unfold getFeatures at h
  split at h
  · split at h
    · simp only [Except.ok.injEq, Prod.mk.injEq] at h
      obtain ⟨-, hs⟩ := h
      subst hs
      exact ⟨rfl, rfl, fun k _ => rfl⟩
    · exact nomatch h
  · split at h
    · exact nomatch h
    · split at h
      · split at h
        · simp only [Except.ok.injEq, Prod.mk.injEq] at h
          obtain ⟨-, hs⟩ := h
          subst hs
          refine ⟨rfl, rfl, fun k hk => ?_⟩
          simp only []
          rw [if_neg hk]
        · exact nomatch h
      · simp only [Except.ok.injEq, Prod.mk.injEq] at h
        obtain ⟨-, hs⟩ := h
        subst hs
        exact ⟨rfl, rfl, fun k _ => rfl⟩

theorem getFeatures_hit (env : Env) (s : St) (uid : String) (v : CacheVal)
    (f : List ℚ) (hredis : env.redisAvailable = true)
    (hc : s.cache uid = some v) (hv : pickleLoads v = some f) :
    getFeatures env s uid = .ok (f, s) := by
  unfold getFeatures
  simp [hredis, hc, hv]

theorem getFeatures_corrupt (env : Env) (s : St) (uid : String) (v : CacheVal)
    (hredis : env.redisAvailable = true)
    (hc : s.cache uid = some v) (hv : pickleLoads v = none) :
    getFeatures env s uid = .error .deserializationError := by
  unfold getFeatures
  simp [hredis, hc, hv]

theorem getFeatures_miss_absent (env : Env) (s : St) (uid : String)
    (hc : s.cache uid = none) (hdb : userSelect s.users uid = none) :
    getFeatures env s uid = .error .userNotFound := by
  unfold getFeatures
  simp [hc, hdb]

theorem getFeatures_set_failure (env : Env) (s : St) (uid : String) (row : UserRow)
    (hredis : env.redisAvailable = true) (hset : env.cacheSetOk = false)
    (hc : s.cache uid = none) (hdb : userSelect s.users uid = some row) :
    getFeatures env s uid = .error .cacheWriteError := by
  unfold getFeatures
  simp [hredis, hset, hc, hdb]

theorem getFeatures_ne_validation (env : Env) (s : St) (uid : String) :
    getFeatures env s uid ≠ .error .validationError := by
  unfold getFeatures
  intro h
  split at h
  · split at h
    · exact nomatch h
    · exact nomatch h
  · split at h
    · exact nomatch h
    · split at h
      · split at h
        · exact nomatch h
        · exact nomatch h
      · exact nomatch h

theorem handler_of_features_error (env : Env) (p : Params) (s : St) (e : Err)
    (hval : paramsValid p = true) (hmodel : env.modelLoaded = true)
    (hf : getFeatures env s p.user_id = .error e) :
    handleRecommend env p s = .error e := by
  unfold handleRecommend
  simp [hval, hmodel, hf]

/-- Counterexample for C3: with a users row present for u1 but an
undecodable cached value, the request fails with the propagated
deserialization error instead of falling through to the store. -/
theorem corrupt_cache_fails_request_counterexample :
    stCorrupt.cache "u1" = some .corrupt ∧
      userSelect stCorrupt.users "u1" = some rowU1 ∧
      handleRecommend envHit pReq stCorrupt = .error .deserializationError := by
  refine ⟨rfl, rfl, ?_⟩
  exact handler_of_features_error envHit pReq stCorrupt _ (by decide) rfl
    (getFeatures_corrupt envHit stCorrupt "u1" .corrupt rfl rfl rfl)

/-- C3 amended: a cached value that cannot be deserialized makes
pickle.loads raise; the exception propagates and the request fails
with that error, rather than being treated as a cache miss. -/
theorem corrupt_cache_value_error (env : Env) (p : Params) (s : St) (v : CacheVal)
    (hval : paramsValid p = true) (hmodel : env.modelLoaded = true)
    (hredis : env.redisAvailable = true)
    (hc : s.cache p.user_id = some v) (hv : pickleLoads v = none) :
    handleRecommend env p s = .error .deserializationError :=
  handler_of_features_error env p s _ hval hmodel
    (getFeatures_corrupt env s p.user_id v hredis hc hv)

/-- Witness for the C3 amended theorem at the concrete corrupt state. -/
theorem corrupt_cache_value_error_witness :
    handleRecommend envHit pReq stCorrupt = .error .deserializationError :=
  corrupt_cache_value_error envHit pReq stCorrupt .corrupt (by decide) rfl rfl rfl rfl

/-- Counterexample for C6: on a cache miss with the users row present,
a failing redis set makes the request fail with the propagated cache
write error instead of returning the recommendations. -/
theorem cache_write_failure_fails_request_counterexample :
    stMiss.cache "u1" = none ∧
      userSelect stMiss.users "u1" = some rowU1 ∧
      handleRecommend envSetFail pReq stMiss = .error .cacheWriteError := by
  refine ⟨rfl, rfl, ?_⟩
  exact handler_of_features_error envSetFail pReq stMiss _ (by decide) rfl
    (getFeatures_set_failure envSetFail stMiss "u1" rowU1 rfl rfl rfl rfl)

/-- C6 amended: the write-back redis set is not guarded by any
try/except, so when the set call raises the request fails with that
error; only when the cache client is absent altogether is the write
skipped and the request served from the store. -/
theorem cache_write_failure_error (env : Env) (p : Params) (s : St) (row : UserRow)
    (hval : paramsValid p = true) (hmodel : env.modelLoaded = true)
    (hredis : env.redisAvailable = true) (hset : env.cacheSetOk = false)
    (hc : s.cache p.user_id = none)
    (hdb : userSelect s.users p.user_id = some row) :
    handleRecommend env p s = .error .cacheWriteError :=
  handler_of_features_error env p s _ hval hmodel
    (getFeatures_set_failure env s p.user_id row hredis hset hc hdb)

/-- Witness for the C6 amended theorem at the concrete miss state. -/
theorem cache_write_failure_error_witness :
    handleRecommend envSetFail pReq stMiss = .error .cacheWriteError :=
  cache_write_failure_error envSetFail pReq stMiss rowU1 (by decide) rfl rfl rfl rfl rfl

/-- C7: for a user id with no cache entry and no users row, the
request fails with the user-not-found error, and the result is the
same for every possible similarity model, so no similarity query
influences the outcome. -/
theorem unknown_user_not_found_no_query (env : Env) (p : Params) (s : St)
    (hval : paramsValid p = true) (hmodel : env.modelLoaded = true)
    (hc : s.cache p.user_id = none) (hdb : userSelect s.users p.user_id = none) :
    handleRecommend env p s = .error .userNotFound ∧
      ∀ g : List ℚ → List (Int × ℚ),
        handleRecommend { env with knn := g } p s = .error .userNotFound := by
  constructor
  · exact handler_of_features_error env p s _ hval hmodel
      (getFeatures_miss_absent env s p.user_id hc hdb)
  · intro g
    exact handler_of_features_error { env with knn := g } p s _ hval hmodel
      (getFeatures_miss_absent { env with knn := g } s p.user_id hc hdb)

/-- Witness for C7 at the concrete empty store. -/
theorem unknown_user_not_found_no_query_witness :
    handleRecommend envHit pReq stEmpty = .error .userNotFound ∧
      ∀ g : List ℚ → List (Int × ℚ),
        handleRecommend { envHit with knn := g } pReq stEmpty = .error .userNotFound :=
  unknown_user_not_found_no_query envHit pReq stEmpty (by decide) rfl rfl rfl

/-- C5 amended: the endpoint validates only size, max_dis and
sort_dis; latitude and longitude carry no range constraint, so no
request fails parameter validation because of its coordinates and an
out-of-range coordinate reaches the pipeline. -/
theorem coordinates_not_validated (env : Env) (p : Params) (s : St)
    (h1 : 0 < p.size) (h2 : 0 < p.max_dis)
    (h3 : 0 ≤ p.sort_dis) (h4 : p.sort_dis ≤ 1) :
    handleRecommend env p s ≠ .error .validationError := by
  have hval : paramsValid p = true := by
    unfold paramsValid
    simp only [Bool.and_eq_true, decide_eq_true_eq]
    exact ⟨⟨⟨h1, h2⟩, h3⟩, h4⟩
  intro hcontra
  unfold handleRecommend at hcontra
  rw [if_neg (fun hn => hn hval)] at hcontra
  split at hcontra
  · exact nomatch hcontra
  · split at hcontra
    · rename_i e heq
      injection hcontra with he
      subst he
      exact getFeatures_ne_validation env s p.user_id heq
    · split at hcontra
      · exact nomatch hcontra
      · split at hcontra
        · exact nomatch hcontra
        · split at hcontra
          · exact nomatch hcontra
          · exact nomatch hcontra

/-- Witness for the C5 amended theorem: an out-of-range latitude does
not produce a validation error. -/
theorem coordinates_not_validated_witness :
    handleRecommend envHit pReq stHit ≠ .error .validationError :=
  coordinates_not_validated envHit pReq stHit (by decide) (by decide)
    (by decide) (by decide)

/-- Counterexample for C5: a request whose latitude 100 lies outside
the legal range is served normally (the pipeline runs and the request
succeeds) instead of failing validation at the boundary. -/
theorem out_of_range_latitude_served_counterexample :
    (90 : ℚ) < pReq.latitude ∧
      handleRecommend envHit pReq stHit = .ok ([⟨"A", 1, 100⟩], stHit) := by
  constructor
  · show (90 : ℚ) < 100
    norm_num
  · simp [handleRecommend, getFeatures, paramsValid, envHit, pReq, stHit,
      rowU1, recA, dispC, userSelect, fetchRestaurants, rank, rankSort,
      rankFilter, computeResults, resultOf, buildMapByIndex, dictInsert,
      List.mergeSort, pickleLoads]

/-- C10: when a request completes, the users table and the restaurants
table afterwards are the tables it started from (both store accesses
are reads), and the only key whose cached value may differ is the
user id of the request itself. -/
theorem request_mutates_nothing_but_own_cache_key (env : Env) (p : Params) (s : St)
    (out : List CandidateResult) (s2 : St)
    (h : handleRecommend env p s = .ok (out, s2)) :
    s2.users = s.users ∧ s2.restaurants = s.restaurants ∧
      ∀ k, k ≠ p.user_id → s2.cache k = s.cache k := by
  unfold handleRecommend at h
  split at h
  · exact nomatch h
  · split at h
    · exact nomatch h
    · split at h
      · exact nomatch h
      · rename_i features s1 heq
        split at h
        · simp only [Except.ok.injEq, Prod.mk.injEq] at h
          obtain ⟨-, hs⟩ := h
          subst hs
          exact getFeatures_ok_frame env s p.user_id features s1 heq
        · split at h
          · simp only [Except.ok.injEq, Prod.mk.injEq] at h
            obtain ⟨-, hs⟩ := h
            subst hs
            exact getFeatures_ok_frame env s p.user_id features s1 heq
          · split at h
            · simp only [Except.ok.injEq, Prod.mk.injEq] at h
              obtain ⟨-, hs⟩ := h
              subst hs
              exact getFeatures_ok_frame env s p.user_id features s1 heq
            · simp only [Except.ok.injEq, Prod.mk.injEq] at h
              obtain ⟨-, hs⟩ := h
              subst hs
              exact getFeatures_ok_frame env s p.user_id features s1 heq

/-- Witness for C10 at the concrete cache-hit run. -/
theorem request_mutates_nothing_but_own_cache_key_witness :
    stHit.users = stHit.users ∧ stHit.restaurants = stHit.restaurants ∧
      ∀ k, k ≠ pReq.user_id → stHit.cache k = stHit.cache k :=
  request_mutates_nothing_but_own_cache_key envHit pReq stHit [⟨"A", 1, 100⟩] stHit
    (by simp [handleRecommend, getFeatures, paramsValid, envHit, pReq, stHit,
      rowU1, recA, dispC, userSelect, fetchRestaurants, rank, rankSort,
      rankFilter, computeResults, resultOf, buildMapByIndex, dictInsert,
      List.mergeSort, pickleLoads])

theorem rank_mem_id (disp : ℚ × ℚ → ℚ × ℚ → Int) (origin : ℚ × ℚ)
    (candidates : List (Int × ℚ)) (records : List RestaurantRecord)
    (max_dis sort_dis size : Int) (c : CandidateResult)
    (hc : c ∈ rank disp origin candidates records max_dis sort_dis size) :
    ∃ r, r ∈ records ∧ r.restaurant_id = c.id := by
  have h1 : c ∈ rankSort sort_dis (rankFilter max_dis
      (computeResults disp origin candidates records)) := List.take_subset _ _ hc
  have h2 : c ∈ rankFilter max_dis (computeResults disp origin candidates records) := by
    unfold rankSort at h1
    split at h1 <;> exact List.mem_mergeSort.mp h1
  unfold rankFilter at h2
  have h3 : c ∈ computeResults disp origin candidates records :=
    List.mem_of_mem_filter h2
  unfold computeResults at h3
  obtain ⟨cand, hcand, hres⟩ := List.mem_filterMap.mp h3
  unfold resultOf at hres
  split at hres
  · exact nomatch hres
  · rename_i r hb2
    split at hres
    · have hcr := Option.some.inj hres
      refine ⟨r, (buildMap_mem records cand.1 r hb2).1, ?_⟩
      rw [← hcr]
    · exact nomatch hres

/-- C4: every restaurant in a completed response comes from a
restaurants-table row whose ordinal index is among the indices
returned by the similarity query on the served feature vector and
whose h3 cell is in the ring around the caller position. -/
theorem serve_respects_both_filters (env : Env) (p : Params) (s : St)
    (out : List CandidateResult) (s2 : St)
    (h : handleRecommend env p s = .ok (out, s2)) :
    ∀ c ∈ out, ∃ f s1, getFeatures env s p.user_id = .ok (f, s1) ∧
      ∃ r, r ∈ s.restaurants ∧ r.restaurant_id = c.id ∧
        r.index ∈ (env.knn f).map Prod.fst ∧
        r.h3_index ∈ env.gridDisk (env.latlngToCell p.latitude p.longitude) := by
  intro c hc
  unfold handleRecommend at h
  split at h
  · exact nomatch h
  · split at h
    · exact nomatch h
    · split at h
      · exact nomatch h
      · rename_i features s1 heq
        split at h
        · simp only [Except.ok.injEq, Prod.mk.injEq] at h
          obtain ⟨ho, -⟩ := h
          subst ho
          exact absurd hc (List.not_mem_nil c)
        · split at h
          · simp only [Except.ok.injEq, Prod.mk.injEq] at h
            obtain ⟨ho, -⟩ := h
            subst ho
            exact absurd hc (List.not_mem_nil c)
          · split at h
            · simp only [Except.ok.injEq, Prod.mk.injEq] at h
              obtain ⟨ho, -⟩ := h
              subst ho
              exact absurd hc (List.not_mem_nil c)
            · simp only [Except.ok.injEq, Prod.mk.injEq] at h
              obtain ⟨ho, -⟩ := h
              subst ho
              obtain ⟨r, hrmem, hid⟩ := rank_mem_id _ _ _ _ _ _ _ c hc
              unfold fetchRestaurants at hrmem
              have hrs := List.mem_filter.mp hrmem
              have hb := hrs.2
              rw [Bool.and_eq_true] at hb
              have hframe := getFeatures_ok_frame env s p.user_id features s1 heq
              refine ⟨features, s1, heq, r, ?_, hid, ?_, ?_⟩
              · rw [← hframe.2.1]
                exact hrs.1
              · simpa [List.contains] using hb.1
              · simpa [List.contains] using hb.2

/-- Witness for C4 at the concrete cache-hit run, instantiated at its
single output element. -/
theorem serve_respects_both_filters_witness :
    ∃ f s1, getFeatures envHit stHit pReq.user_id = .ok (f, s1) ∧
      ∃ r, r ∈ stHit.restaurants ∧
        r.restaurant_id = (⟨"A", 1, 100⟩ : CandidateResult).id ∧
        r.index ∈ (envHit.knn f).map Prod.fst ∧
        r.h3_index ∈ envHit.gridDisk (envHit.latlngToCell pReq.latitude pReq.longitude) :=
  serve_respects_both_filters envHit pReq stHit [⟨"A", 1, 100⟩] stHit
    (by simp [handleRecommend, getFeatures, paramsValid, envHit, pReq, stHit,
      rowU1, recA, dispC, userSelect, fetchRestaurants, rank, rankSort,
      rankFilter, computeResults, resultOf, buildMapByIndex, dictInsert,
      List.mergeSort, pickleLoads])
    ⟨"A", 1, 100⟩ (by simp)

theorem cellsToVec_map_num (l : List Nat) (f : Nat → ℚ) :
    cellsToVec (l.map (fun i => Cell.num (f i))) = some (l.map f) := by
  induction l with
  | nil => rfl
  | cons a t ih => simp [cellsToVec, ih]

theorem range_1000_eq : List.range 1000 = 0 :: List.range' 1 999 := by
  rw [List.range_eq_range', show (1000 : Nat) = 999 + 1 from rfl, List.range'_succ]

/-- C8: the cache value the pre-warmer writes for a user row decodes
to exactly the feature list the serving miss path constructs for that
row (same 1000 elements in column order feature_0 .. feature_999), and
therefore also to exactly what the read-through write-back stores, so
a cache hit serves identical features either way. -/
theorem prewarm_serving_value_agreement (r : UserRow) :
    pickleLoads (prewarmValue r) = some (servingSelectedRow r) ∧
      pickleLoads (prewarmValue r) = pickleLoads (.enc (servingSelectedRow r)) ∧
      (servingSelectedRow r).length = 1000 := by
  have hslice : prewarmSlice r = (List.range 1000).map (fun i => Cell.num (r.feat i)) := rfl
  have hvec : cellsToVec (prewarmSlice r) = some ((List.range 1000).map r.feat) := by
    rw [hslice]
    exact cellsToVec_map_num _ _
  have hser : (List.range 1000).map r.feat = servingSelectedRow r := by
    rw [range_1000_eq]
    rfl
  have hval : prewarmValue r = .enc (servingSelectedRow r) := by
    unfold prewarmValue prewarmCacheValue
    rw [hvec, hser]
    rfl
  refine ⟨?_, ?_, ?_⟩
  · rw [hval]
    rfl
  · rw [hval]
  · unfold servingSelectedRow
    simp [List.length_range']

/-- C9: whenever the redis connect attempt either succeeds or fails
with the caught connection error, the pre-warm hook returns normally,
whatever the users table and whatever read or write faults occur in
the batch loop; so a pre-warm failure never prevents startup. -/
theorem prewarm_failure_never_blocks_startup (env : PrewarmEnv)
    (h : env.connect = .ok ∨ env.connect = .connectionError) :
    ∃ o, on_starting env = .ok o := by
  unfold on_starting
  rcases h with h | h <;> rw [h]
  · cases hl : prewarmLoop env with
    | error e => exact ⟨.degraded, rfl⟩
    | ok nw =>
      obtain ⟨n, w⟩ := nw
      exact ⟨.loaded n, rfl⟩
  · exact ⟨.skipped, rfl⟩

/-- Witness for C9: a run whose first pipelined write raises still
returns normally. -/
theorem prewarm_failure_never_blocks_startup_witness :
    ∃ o, on_starting envPre = .ok o :=
  prewarm_failure_never_blocks_startup envPre (Or.inl rfl)

end RestaurantRec
